import Mathlib

/-!
# Verification of the monoio/hyper HTTP example servers

A shallow embedding of the two example servers (`src/monoio-http/src/main.rs`
and `src/hyper-http/src/main.rs`): the response serializer, the
routing handlers, and the per-connection read/parse/respond loop, together
with models of the external collaborators (the request parser and the
standard response parser) taken from the specification.

Byte sequences are modelled as `List Char`, one `Char` per byte.
-/

abbrev Bytes := List Char

/-- The fixed maximum header count of the request parser (`MAX_HEADERS` in
`src/monoio-http/src/main.rs`). -/
def MAX_HEADERS : Nat := 64

/-- The per-connection read buffer capacity (`BUFFER_SIZE` in
`src/monoio-http/src/main.rs`). -/
def BUFFER_SIZE : Nat := 8192

/-- RFC 7230 `tchar`: the characters permitted in HTTP tokens (methods and
header names).  The apostrophe (code 39) and the backquote (code 96) are
written via their code points. -/
def isTokenChar (c : Char) : Bool :=
  c.isAlphanum || c = '!' || c = '#' || c = '$' || c = '%' || c = '&' ||
    c = '*' || c = '+' || c = '-' || c = '.' || c = '^' || c = '_' ||
    c = '|' || c = '~' || c.toNat = 39 || c.toNat = 96

/-- Characters permitted in a request target: visible bytes other than space
and DEL, as accepted by the request parser. -/
def isPathChar (c : Char) : Bool :=
  33 ≤ c.toNat && c.toNat ≠ 127 && c.toNat < 256

/-- Characters permitted in a header value by the `http` crate: tab, or any
byte from 32 to 255 other than DEL.  In particular CR and LF are excluded. -/
def isValueChar (c : Char) : Bool :=
  c.toNat = 9 || (32 ≤ c.toNat && c.toNat ≠ 127 && c.toNat < 256)

/-- Optional whitespace after a header colon: space or tab. -/
def isOWS (c : Char) : Bool := c = ' ' || c = '\t'

/-- Every character except the colon (header-name scan of the response
parser). -/
def notColon (c : Char) : Bool := c ≠ ':'

/-- Every character except CR and LF (header-value scan of the request
parser). -/
def notCRLF (c : Char) : Bool := c.toNat ≠ 13 && c.toNat ≠ 10

/-- A valid header name: nonempty and made of token characters only
(mirrors `http::HeaderName` validation). -/
def goodNameB (n : Bytes) : Bool :=
  !n.isEmpty && n.all isTokenChar

/-- A valid header value that also survives a standard parse unchanged: every
byte is a permitted value byte (hence no CR or LF), and the value does not
begin with optional whitespace (which a standard parser would strip). -/
def goodValueB (v : Bytes) : Bool :=
  v.all isValueChar &&
    (match v with
     | [] => true
     | c :: _ => !(isOWS c))

/-- Validity of a full ordered header list. -/
def goodHeadersB (hs : List (Bytes × Bytes)) : Bool :=
  hs.all (fun nv => goodNameB nv.1 && goodValueB nv.2)

/-! ## Decimal rendering of naturals (`to_string` on integers in the source) -/

/-- Fuel-driven decimal digit renderer; `fuel` bounds the number of
divisions so the definition is structurally recursive and evaluable. -/
def natToDigitsAux : Nat → Nat → List Char
  | 0, _ => []
  | fuel + 1, n =>
    if n = 0 then []
    else natToDigitsAux fuel (n / 10) ++ [Nat.digitChar (n % 10)]

/-- Decimal rendering of a natural number, as `to_string` produces it in the
source (`status.as_u16().to_string()`, `body.len().to_string()`). -/
def natToDigits (n : Nat) : List Char :=
  if n = 0 then ['0'] else natToDigitsAux (n + 1) n

/-- Numeric value of a decimal digit character. -/
def charToDigit (c : Char) : Nat := c.toNat - 48

/-- Numeric value of a string of decimal digits, most significant first. -/
def digitsToNat (l : List Char) : Nat :=
  l.foldl (fun acc c => acc * 10 + charToDigit c) 0

/-! ## The Response data model (`http::Response` as used by the source) -/

/-- A Response value: status code, ordered header list, body bytes.
Mirrors the `http::Response` structure as the source uses it (status as a
`u16`-ranged number, ordered name/value header pairs, borrowed body). -/
structure Response where
  status : Nat
  headers : List (Bytes × Bytes)
  body : Bytes
deriving DecidableEq, Repr

/-- Header name constant `CONTENT_LENGTH` (header names in the `http` crate
are stored lowercase). -/
def CONTENT_LENGTH : Bytes := "content-length".toList

/-- Header name constant `DATE`. -/
def DATE : Bytes := "date".toList

/-- Header name constant `CONTENT_TYPE`. -/
def CONTENT_TYPE : Bytes := "content-type".toList

/-- Lowercasing of a byte string, for case-insensitive header-name
comparison. -/
def lowerB (l : Bytes) : Bytes := l.map Char.toLower

/-- `HeaderMap::contains_key`: case-insensitive presence test of a header
name in the ordered header list. -/
def containsKey (hs : List (Bytes × Bytes)) (name : Bytes) : Bool :=
  hs.any (fun nv => lowerB nv.1 = lowerB name)

/-- `Response::builder()...body(..)`: collects status, headers and body and
validates them, returning `none` on an invalid status or header (the
builder's error path, consumed by `?` or `unwrap()` in the source). -/
def Response.build (status : Nat) (headers : List (Bytes × Bytes))
    (body : Bytes) : Option Response :=
  if 100 ≤ status ∧ status ≤ 999 ∧ goodHeadersB headers = true then
    some ⟨status, headers, body⟩
  else none

/-- Validity of a Response as the `http` crate guarantees it for any value
it hands out: status in `100..=999` and well-formed headers. -/
def goodResponseB (r : Response) : Bool :=
  decide (100 ≤ r.status) && decide (r.status ≤ 999) && goodHeadersB r.headers

/-! ## The canonical reason phrases (`StatusCode::canonical_reason`) -/

/-- Association-list lookup used for the reason-phrase table. -/
def lookupReason : List (Nat × String) → Nat → Option String
  | [], _ => none
  | p :: t, s => if s = p.1 then some p.2 else lookupReason t s

/-- Modelled from the spec: the `<reason>` of the status line is the
canonical HTTP/1.1 reason phrase of the status code (RFC 7231), as
`StatusCode::canonical_reason` of the external `http` crate returns it. -/
def reasonTable : List (Nat × String) :=
  [(100, "Continue"), (101, "Switching Protocols"), (102, "Processing"),
   (200, "OK"), (201, "Created"), (202, "Accepted"),
   (203, "Non Authoritative Information"), (204, "No Content"),
   (205, "Reset Content"), (206, "Partial Content"), (207, "Multi-Status"),
   (208, "Already Reported"), (226, "IM Used"),
   (300, "Multiple Choices"), (301, "Moved Permanently"), (302, "Found"),
   (303, "See Other"), (304, "Not Modified"), (305, "Use Proxy"),
   (307, "Temporary Redirect"), (308, "Permanent Redirect"),
   (400, "Bad Request"), (401, "Unauthorized"), (402, "Payment Required"),
   (403, "Forbidden"), (404, "Not Found"), (405, "Method Not Allowed"),
   (406, "Not Acceptable"), (407, "Proxy Authentication Required"),
   (408, "Request Timeout"), (409, "Conflict"), (410, "Gone"),
   (411, "Length Required"), (412, "Precondition Failed"),
   (413, "Payload Too Large"), (414, "URI Too Long"),
   (415, "Unsupported Media Type"), (416, "Range Not Satisfiable"),
   (417, "Expectation Failed"), (418, "I\x27m a teapot"),
   (421, "Misdirected Request"), (422, "Unprocessable Entity"),
   (423, "Locked"), (424, "Failed Dependency"), (426, "Upgrade Required"),
   (428, "Precondition Required"), (429, "Too Many Requests"),
   (431, "Request Header Fields Too Large"),
   (451, "Unavailable For Legal Reasons"),
   (500, "Internal Server Error"), (501, "Not Implemented"),
   (502, "Bad Gateway"), (503, "Service Unavailable"),
   (504, "Gateway Timeout"), (505, "HTTP Version Not Supported"),
   (506, "Variant Also Negotiates"), (507, "Insufficient Storage"),
   (508, "Loop Detected"), (510, "Not Extended"),
   (511, "Network Authentication Required")]

/-- `status.canonical_reason().unwrap_or("")` as the serializer uses it. -/
def reasonStr (s : Nat) : Bytes :=
  ((lookupReason reasonTable s).getD "").toList

/-! ## The response serializer (`serialize_response` in
`src/monoio-http/src/main.rs`) -/

/-- One rendered header line `<Name>: <value>\r\n`, the bytes the
serializer's loop body appends per header. -/
def headerLine (nv : Bytes × Bytes) : Bytes :=
  nv.1 ++ ':' :: ' ' :: nv.2 ++ ['\r', '\n']

/-- The serializer's `for (name, value) in headers.iter()` loop: the
concatenation of the rendered header lines. -/
def headerBlock : List (Bytes × Bytes) → Bytes
  | [] => []
  | nv :: t => headerLine nv ++ headerBlock t

/-- `serialize_response` from `src/monoio-http/src/main.rs`.  The source's
only nondeterministic input, `fmt_http_date(SystemTime::now())`, is passed
in as the parameter `d`; everything else follows the source's sequence of
`put_slice` calls on the output buffer. -/
def serialize_response (d : Bytes) (response : Response) : Bytes :=
  let status := response.status
  let headers := response.headers
  let body := response.body
  let buffer : Bytes := []
  -- Write status line
  let buffer := buffer ++ "HTTP/1.1 ".toList
  let buffer := buffer ++ natToDigits status
  let buffer := buffer ++ [' ']
  let buffer := buffer ++ reasonStr status
  let buffer := buffer ++ ['\r', '\n']
  -- Add headers
  let buffer := buffer ++ headerBlock headers
  -- Add Content-Length if not present
  let buffer :=
    if containsKey headers CONTENT_LENGTH then buffer
    else buffer ++ CONTENT_LENGTH ++ ':' :: ' ' ::
      natToDigits body.length ++ ['\r', '\n']
  -- Add Date if not present
  let buffer :=
    if containsKey headers DATE then buffer
    else buffer ++ DATE ++ ':' :: ' ' :: d ++ ['\r', '\n']
  -- Finish headers
  let buffer := buffer ++ ['\r', '\n']
  -- Add body
  let buffer := buffer ++ body
  buffer

/-- The headers the serializer injects (in injection order), for stating
properties about the serialized output. -/
def injectedHeaders (d : Bytes) (r : Response) : List (Bytes × Bytes) :=
  (if containsKey r.headers CONTENT_LENGTH then []
   else [(CONTENT_LENGTH, natToDigits r.body.length)]) ++
  (if containsKey r.headers DATE then [] else [(DATE, d)])

/-! ## The routing handlers -/

/-- A parsed request view, mirroring `httparse::Request`: every field is
optional until the parse that fills it succeeds, and the header list
borrows from the read buffer. -/
structure RawRequest where
  method : Option Bytes
  path : Option Bytes
  version : Option Nat
  headers : List (Bytes × Bytes)
deriving DecidableEq, Repr

/-- `handle_request` from `src/monoio-http/src/main.rs`: routes on the
request path.  `none` models the two abnormal exits of the source — the
`expect` on a missing path and the builder's error consumed by `?`. -/
def handle_request (req : RawRequest) : Option Response :=
  match req.path with
  | none => none
  | some p =>
    if p = "/".toList then
      Response.build 200 [(CONTENT_TYPE, "text/plain".toList)]
        "Hello, World!".toList
    else if p = "/health".toList then
      Response.build 200 [(CONTENT_TYPE, "text/plain".toList)] "Ok".toList
    else
      Response.build 404 [(CONTENT_TYPE, "text/plain".toList)]
        "Not Found".toList

/-- `handle_request` from `src/hyper-http/src/main.rs`: routes on
`req.uri().path()`; `none` models the builder `unwrap()` failing. -/
def hyper_handle_request (path : Bytes) : Option Response :=
  if path = "/".toList then
    Response.build 200 [(CONTENT_TYPE, "text/plain".toList)]
      "Hello, World!".toList
  else if path = "/health".toList then
    Response.build 200 [(CONTENT_TYPE, "text/plain".toList)] "OK".toList
  else
    Response.build 404 [(CONTENT_TYPE, "text/plain".toList)]
      "Not Found".toList

/-! ## The request parser

Modelled from the spec (section 4.1): the request parser (`httparse` in the
source, not part of this repository) attempts to parse exactly one request
from the start of the byte slice.  `Complete` carries the structured view
and the consumed byte count; more bytes needed yields the Partial outcome
(constructor `needMore` below); invalid bytes or more than `MAX_HEADERS`
headers yield Malformed.  An empty slice is Partial. -/

/-- `ParseOutcome` from the spec's data model: Complete (with consumed byte
count), Partial (`needMore`), or Malformed. -/
inductive ParseOutcome where
  | complete (req : RawRequest) (consumed : Nat)
  | needMore
  | malformed
deriving DecidableEq, Repr

/-- Outcome of parsing one syntactic component: the value plus the
remaining bytes, a request for more bytes, or a hard failure. -/
inductive PRes (α : Type) where
  | ok (v : α) (rest : Bytes)
  | needMore
  | bad
deriving DecidableEq, Repr

/-- Match an exact literal at the start of the input; running out of input
inside the literal means more bytes are needed. -/
def parseLiteral : Bytes → Bytes → PRes Unit
  | [], rest => .ok () rest
  | _ :: _, [] => .needMore
  | l :: ls, c :: cs => if c = l then parseLiteral ls cs else .bad

/-- Modelled from the spec: parse the request line
`<method> <path> HTTP/1.<minor>\r\n`.  Returns method, path and minor
version. -/
def parseRequestLine (buf : Bytes) : PRes (Bytes × Bytes × Nat) :=
  let m := buf.takeWhile isTokenChar
  match buf.dropWhile isTokenChar with
  | [] => .needMore
  | ' ' :: r2 =>
    if m = [] then .bad
    else
      let p := r2.takeWhile isPathChar
      match r2.dropWhile isPathChar with
      | [] => .needMore
      | ' ' :: r4 =>
        if p = [] then .bad
        else
          match parseLiteral "HTTP/1.".toList r4 with
          | .needMore => .needMore
          | .bad => .bad
          | .ok _ r5 =>
            match r5 with
            | [] => .needMore
            | '1' :: r6 =>
              match r6 with
              | [] => .needMore
              | ['\r'] => .needMore
              | '\r' :: '\n' :: r7 => .ok (m, p, 1) r7
              | _ => .bad
            | '0' :: r6 =>
              match r6 with
              | [] => .needMore
              | ['\r'] => .needMore
              | '\r' :: '\n' :: r7 => .ok (m, p, 0) r7
              | _ => .bad
            | _ => .bad
      | _ => .bad
  | _ => .bad

/-- Modelled from the spec: parse up to `slots` header lines
`<name>: <value>\r\n` followed by the terminating empty line; a valid
header found with no slot left is the over-the-limit Malformed case. -/
def parseHeadersAux : Nat → Bytes → PRes (List (Bytes × Bytes))
  | _, [] => .needMore
  | _, ['\r'] => .needMore
  | slots, '\r' :: '\n' :: rest =>
    match slots with
    | _ => .ok [] rest
  | slots, buf =>
    match slots with
    | 0 => .bad
    | s + 1 =>
      let n := buf.takeWhile isTokenChar
      if n = [] then .bad
      else
        match buf.dropWhile isTokenChar with
        | [] => .needMore
        | ':' :: r2 =>
          let r3 := r2.dropWhile isOWS
          let v := r3.takeWhile notCRLF
          match r3.dropWhile notCRLF with
          | [] => .needMore
          | ['\r'] => .needMore
          | '\r' :: '\n' :: r4 =>
            match parseHeadersAux s r4 with
            | .ok hs rest => .ok ((n, v) :: hs) rest
            | .needMore => .needMore
            | .bad => .bad
          | _ => .bad
        | _ => .bad

/-- Modelled from the spec (section 4.1): `req.parse(&buffer[..bytes_read])`
— parse one request from the start of the slice, yielding Complete with
the consumed byte count, Partial, or Malformed. -/
def parse_request (buf : Bytes) : ParseOutcome :=
  match parseRequestLine buf with
  | .needMore => .needMore
  | .bad => .malformed
  | .ok (m, p, v) r =>
    match parseHeadersAux MAX_HEADERS r with
    | .needMore => .needMore
    | .bad => .malformed
    | .ok hs rest =>
      .complete ⟨some m, some p, some v, hs⟩ (buf.length - rest.length)

/-! ## The connection loop (`handle_connection` in
`src/monoio-http/src/main.rs`) -/

/-- The fixed 400 response built in the `Ok(Status::Partial)` branch. -/
def incompleteResponse : Response :=
  ⟨400, [(CONTENT_TYPE, "text/plain".toList)],
    "Incomplete HTTP request".toList⟩

/-- The fixed 400 response built in the `Err(_)` branch. -/
def badRequestResponse : Response :=
  ⟨400, [(CONTENT_TYPE, "text/plain".toList)], "Bad Request".toList⟩

/-- `handle_connection` from `src/monoio-http/src/main.rs`.  `d` is the
date string threaded to the serializer; `buffer` is the reused
per-connection buffer; `reads` is the sequence of successful read results
(an empty chunk is a zero-byte read, i.e. peer close; an exhausted list
likewise ends the connection).  Returns the serialized responses written,
in order, and whether the connection ended cleanly (`Ok`). -/
def handle_connection (d : Bytes) : Bytes → List Bytes → List Bytes × Bool
  | _, [] => ([], true)
  | _, chunk :: rest =>
    -- buffer.clear(); stream.read(buffer)
    let buffer : Bytes := [] ++ chunk
    let bytes_read := chunk.length
    if bytes_read = 0 then ([], true) -- Connection closed
    else
      match parse_request (buffer.take bytes_read) with
      | .complete req _ =>
        match handle_request req with
        | none => ([], false)
        | some res =>
          let out := serialize_response d res
          let next := handle_connection d buffer rest
          (out :: next.1, next.2)
      | .needMore =>
        ([serialize_response d incompleteResponse], true)
      | .malformed =>
        ([serialize_response d badRequestResponse], true)

/-! ## A standard HTTP/1.1 response parser

Modelled from the spec (section 8, the round-trip property): a standard
HTTP response parser — status line `HTTP/1.1 <code> <reason>\r\n`, header
lines `<name>: <value>\r\n` with optional whitespace after the colon
stripped, a terminating empty line, and the remainder as the body. -/

/-- Split the input at the first CRLF: the bytes before it and the bytes
after it. -/
def splitAtCRLF : Bytes → Option (Bytes × Bytes)
  | [] => none
  | [_] => none
  | c1 :: c2 :: rest =>
    if c1 = '\r' ∧ c2 = '\n' then some ([], rest)
    else (splitAtCRLF (c2 :: rest)).map (fun p => (c1 :: p.1, p.2))

/-- Parse header lines until the empty line; returns the headers and the
remaining bytes (the body).  `fuel` bounds the number of lines. -/
def parseRespHeadersAux : Nat → Bytes → Option (List (Bytes × Bytes) × Bytes)
  | 0, _ => none
  | fuel + 1, s =>
    match splitAtCRLF s with
    | none => none
    | some (line, rest) =>
      if line = [] then some ([], rest)
      else
        let n := line.takeWhile notColon
        match line.dropWhile notColon with
        | ':' :: v1 =>
          if n = [] then none
          else
            let v := v1.dropWhile isOWS
            (parseRespHeadersAux fuel rest).map
              (fun p => ((n, v) :: p.1, p.2))
        | _ => none

/-- Modelled from the spec: a standard HTTP/1.1 response parser, returning
the status code, the header list and the body bytes. -/
def parse_http_response (s : Bytes) :
    Option (Nat × List (Bytes × Bytes) × Bytes) :=
  match parseLiteral "HTTP/1.1 ".toList s with
  | .ok _ r1 =>
    let ds := r1.takeWhile Char.isDigit
    if ds = [] then none
    else
      match r1.dropWhile Char.isDigit with
      | ' ' :: r2 =>
        match splitAtCRLF r2 with
        | some (_, r3) =>
          match parseRespHeadersAux (r3.length + 1) r3 with
          | some (hs, body) => some (digitsToNat ds, hs, body)
          | none => none
        | none => none
      | _ => none
  | _ => none

/-! ## List helper lemmas -/

theorem takeWhile_append_of_all {p : Char → Bool} :
    ∀ (a : Bytes) (b : Char) (t : Bytes), (∀ c ∈ a, p c = true) →
      p b = false → (a ++ b :: t).takeWhile p = a := by
  intro a b t ha hb
  induction a with
  | nil => simp [List.takeWhile, hb]
  | cons c cs ih =>
    have hc : p c = true := ha c (by simp)
    simp only [List.cons_append, List.takeWhile, hc]
    simp only [List.cons.injEq, true_and]
    exact ih (fun x hx => ha x (by simp [hx]))

theorem dropWhile_append_of_all {p : Char → Bool} :
    ∀ (a : Bytes) (b : Char) (t : Bytes), (∀ c ∈ a, p c = true) →
      p b = false → (a ++ b :: t).dropWhile p = b :: t := by
  intro a b t ha hb
  induction a with
  | nil => simp [List.dropWhile, hb]
  | cons c cs ih =>
    have hc : p c = true := ha c (by simp)
    simp only [List.cons_append, List.dropWhile, hc]
    exact ih (fun x hx => ha x (by simp [hx]))

theorem parseLiteral_self : ∀ (l r : Bytes), parseLiteral l (l ++ r) = .ok () r := by
  intro l r
  induction l with
  | nil => rfl
  | cons c cs ih => simp [parseLiteral, ih]

theorem splitAtCRLF_append : ∀ (a b : Bytes), (∀ c ∈ a, c ≠ '\r') →
    splitAtCRLF (a ++ '\r' :: '\n' :: b) = some (a, b) := by
  intro a b ha
  induction a with
  | nil => simp [splitAtCRLF]
  | cons c cs ih =>
    have hc : c ≠ '\r' := ha c (by simp)
    have ih2 := ih (fun x hx => ha x (by simp [hx]))
    cases cs with
    | nil =>
      simp only [List.nil_append, List.cons_append] at ih2 ⊢
      rw [splitAtCRLF, if_neg (by simp [hc]), ih2]
      rfl
    | cons c2 cs2 =>
      simp only [List.cons_append] at ih2 ⊢
      rw [splitAtCRLF, if_neg (by simp [hc]), ih2]
      rfl

/-! ## Decimal rendering lemmas -/

theorem natToDigitsAux_zero : ∀ f, natToDigitsAux f 0 = [] := by
  intro f; cases f <;> simp [natToDigitsAux]

theorem natToDigitsAux_fuel : ∀ (n f g : Nat), n ≤ f → n ≤ g →
    natToDigitsAux f n = natToDigitsAux g n := by
  intro n
  induction n using Nat.strong_induction_on with
  | _ n ih =>
    intro f g hf hg
    cases n with
    | zero => rw [natToDigitsAux_zero, natToDigitsAux_zero]
    | succ m =>
      obtain ⟨f2, rfl⟩ : ∃ f2, f = f2 + 1 := ⟨f - 1, by omega⟩
      obtain ⟨g2, rfl⟩ : ∃ g2, g = g2 + 1 := ⟨g - 1, by omega⟩
      simp only [natToDigitsAux]
      rw [if_neg (by omega), if_neg (by omega)]
      have hdiv : (m + 1) / 10 < m + 1 := Nat.div_lt_self (by omega) (by omega)
      rw [ih ((m + 1) / 10) hdiv f2 g2 (by omega) (by omega)]

/-- The literal decimal digit characters. -/
def decDigits : List Char := ['0', '1', '2', '3', '4', '5', '6', '7', '8', '9']

theorem mem_natToDigitsAux : ∀ f n c, c ∈ natToDigitsAux f n → c ∈ decDigits := by
  intro f
  induction f with
  | zero => intro n c h; simp [natToDigitsAux] at h
  | succ f ih =>
    intro n c h
    by_cases hn : n = 0
    · simp [natToDigitsAux, hn] at h
    · rw [natToDigitsAux, if_neg hn] at h
      rcases List.mem_append.mp h with h1 | h2
      · exact ih _ _ h1
      · have hc : c = Nat.digitChar (n % 10) := by simpa using h2
        have h10 : n % 10 < 10 := Nat.mod_lt _ (by omega)
        obtain ⟨k, hk, rfl⟩ : ∃ k, k < 10 ∧ c = Nat.digitChar k :=
          ⟨n % 10, h10, hc⟩
        interval_cases k <;> decide

theorem mem_natToDigits : ∀ n c, c ∈ natToDigits n → c ∈ decDigits := by
  intro n c h
  by_cases hn : n = 0
  · subst hn; simp [natToDigits] at h; subst h; decide
  · rw [natToDigits, if_neg hn] at h
    exact mem_natToDigitsAux _ _ _ h

theorem natToDigits_ne_nil : ∀ n, natToDigits n ≠ [] := by
  intro n
  by_cases hn : n = 0
  · subst hn; simp [natToDigits]
  · rw [natToDigits, if_neg hn]
    simp only [natToDigitsAux]
    rw [if_neg hn]
    simp

theorem decDigit_isDigit {c : Char} (h : c ∈ decDigits) :
    c.isDigit = true := by
  fin_cases h <;> decide

theorem decDigit_isValueChar {c : Char} (h : c ∈ decDigits) :
    isValueChar c = true := by
  fin_cases h <;> decide

theorem decDigit_ne {c x : Char} (h : c ∈ decDigits)
    (hx : x.isDigit = false) : c ≠ x := by
  intro he
  subst he
  rw [decDigit_isDigit h] at hx
  exact Bool.noConfusion hx

theorem natToDigits_three (s : Nat) (h1 : 100 ≤ s) (h2 : s ≤ 999) :
    natToDigits s = [Nat.digitChar (s / 100), Nat.digitChar (s / 10 % 10),
      Nat.digitChar (s % 10)] := by
  have hs0 : s ≠ 0 := by omega
  have hd1 : s / 10 ≠ 0 := by omega
  have hd2 : s / 100 ≠ 0 := by omega
  have hd3 : s / 100 / 10 = 0 := by omega
  rw [natToDigits, if_neg hs0]
  simp only [natToDigitsAux]
  rw [if_neg hs0]
  rw [natToDigitsAux_fuel (s / 10) s (s / 10 + 1) (by omega) (by omega)]
  simp only [natToDigitsAux]
  rw [if_neg hd1]
  rw [natToDigitsAux_fuel (s / 10 / 10) (s / 10) (s / 10 / 10 + 1)
    (by omega) (by omega)]
  simp only [natToDigitsAux]
  rw [if_neg (by omega)]
  rw [natToDigitsAux_fuel (s / 10 / 10 / 10) (s / 10 / 10) 0 (by omega)
    (by omega)]
  have e1 : s / 10 / 10 = s / 100 := by omega
  have e2 : s / 10 / 10 % 10 = s / 100 := by omega
  have e3 : s / 100 % 10 = s / 100 := by omega
  simp [natToDigitsAux, e1, e2, e3]

theorem digitsToNat_natToDigits (s : Nat) (h1 : 100 ≤ s) (h2 : s ≤ 999) :
    digitsToNat (natToDigits s) = s := by
  rw [natToDigits_three s h1 h2]
  have c1 : charToDigit (Nat.digitChar (s / 100)) = s / 100 := by
    have : s / 100 < 10 := by omega
    obtain ⟨k, hk, he⟩ : ∃ k, k < 10 ∧ s / 100 = k := ⟨s / 100, this, rfl⟩
    rw [he]; interval_cases k <;> decide
  have c2 : charToDigit (Nat.digitChar (s / 10 % 10)) = s / 10 % 10 := by
    have : s / 10 % 10 < 10 := Nat.mod_lt _ (by omega)
    obtain ⟨k, hk, he⟩ : ∃ k, k < 10 ∧ s / 10 % 10 = k :=
      ⟨s / 10 % 10, this, rfl⟩
    rw [he]; interval_cases k <;> decide
  have c3 : charToDigit (Nat.digitChar (s % 10)) = s % 10 := by
    have : s % 10 < 10 := Nat.mod_lt _ (by omega)
    obtain ⟨k, hk, he⟩ : ∃ k, k < 10 ∧ s % 10 = k := ⟨s % 10, this, rfl⟩
    rw [he]; interval_cases k <;> decide
  simp only [digitsToNat, List.foldl]
  rw [c1, c2, c3]
  omega

/-! ## Character and reason-phrase facts -/

theorem boolPred_ne {p : Char → Bool} {c x : Char} (h : p c = true)
    (hx : p x = false) : c ≠ x := by
  intro he
  rw [he, hx] at h
  exact Bool.noConfusion h

theorem lookupReason_prop {P : String → Prop} :
    ∀ (t : List (Nat × String)), (∀ q ∈ t, P q.2) →
      ∀ s v, lookupReason t s = some v → P v := by
  intro t
  induction t with
  | nil => intro _ s v h; simp [lookupReason] at h
  | cons q tl ih =>
    intro ht s v h
    rw [lookupReason] at h
    by_cases hs : s = q.1
    · rw [if_pos hs] at h
      cases h
      exact ht q (by simp)
    · rw [if_neg hs] at h
      exact ih (fun q2 hq => ht q2 (by simp [hq])) s v h

theorem reasonStr_ne_cr : ∀ s, ∀ c ∈ reasonStr s, c ≠ '\r' := by
  intro s c hc
  rw [reasonStr] at hc
  cases h : lookupReason reasonTable s with
  | none => rw [h] at hc; simp [String.toList] at hc
  | some v =>
    rw [h] at hc
    simp only [Option.getD_some] at hc
    have htab : ∀ q ∈ reasonTable, ∀ c2 ∈ q.2.toList, c2 ≠ '\r' := by decide
    exact @lookupReason_prop (fun w => ∀ c2 ∈ w.toList, c2 ≠ '\r')
      reasonTable htab s v h c hc

/-! ## Header block structure lemmas -/

theorem headerBlock_append : ∀ (a b : List (Bytes × Bytes)),
    headerBlock (a ++ b) = headerBlock a ++ headerBlock b := by
  intro a b
  induction a with
  | nil => simp [headerBlock]
  | cons nv tl ih => simp [headerBlock, ih]

theorem headerBlock_length_ge : ∀ hs : List (Bytes × Bytes),
    hs.length ≤ (headerBlock hs).length := by
  intro hs
  induction hs with
  | nil => simp [headerBlock]
  | cons nv tl ih =>
    simp only [headerBlock, headerLine, List.length_append, List.length_cons]
    simp only [List.length_append, List.length_cons] at *
    omega

theorem goodHeadersB_append (a b : List (Bytes × Bytes)) :
    goodHeadersB (a ++ b) = (goodHeadersB a && goodHeadersB b) := by
  simp [goodHeadersB, List.all_append]

theorem natToDigits_goodValue : ∀ n, goodValueB (natToDigits n) = true := by
  intro n
  rw [goodValueB.eq_def]
  apply Bool.and_eq_true_iff.mpr
  constructor
  · rw [List.all_eq_true]
    intro c hc
    exact decDigit_isValueChar (mem_natToDigits n c hc)
  · cases h : natToDigits n with
    | nil => exact absurd h (natToDigits_ne_nil n)
    | cons c t =>
      have hc : c ∈ decDigits := mem_natToDigits n c (by rw [h]; simp)
      have h1 : c ≠ ' ' := decDigit_ne hc (by decide)
      have h2 : c ≠ '\t' := decDigit_ne hc (by decide)
      simp [isOWS, h1, h2]

theorem injectedHeaders_good (d : Bytes) (r : Response)
    (hd : goodValueB d = true) :
    goodHeadersB (injectedHeaders d r) = true := by
  rw [injectedHeaders]
  by_cases h1 : containsKey r.headers CONTENT_LENGTH = true <;>
    by_cases h2 : containsKey r.headers DATE = true <;>
      simp [h1, h2, goodHeadersB, goodNameB, natToDigits_goodValue, hd] <;>
      decide

/-- The serialized response, rewritten as one flat concatenation of the
status line, the header block (supplied then injected headers), the empty
line, and the body. -/
theorem serialize_response_eq (d : Bytes) (r : Response) :
    serialize_response d r =
      "HTTP/1.1 ".toList ++ (natToDigits r.status ++ ' ' ::
        (reasonStr r.status ++ '\r' :: '\n' ::
          (headerBlock (r.headers ++ injectedHeaders d r) ++
            '\r' :: '\n' :: r.body))) := by
  rw [serialize_response, injectedHeaders, headerBlock_append]
  by_cases h1 : containsKey r.headers CONTENT_LENGTH = true <;>
    by_cases h2 : containsKey r.headers DATE = true <;>
      simp [h1, h2, headerBlock, headerLine]

/-! ## Parsing the serialized header block back -/

theorem goodNameB_spec {n : Bytes} (h : goodNameB n = true) :
    n ≠ [] ∧ ∀ c ∈ n, isTokenChar c = true := by
  rw [goodNameB] at h
  rcases Bool.and_eq_true_iff.mp h with ⟨h1, h2⟩
  refine ⟨?_, ?_⟩
  · intro he
    subst he
    simp at h1
  · intro c hc
    exact List.all_eq_true.mp h2 c hc

theorem goodValueB_spec {v : Bytes} (h : goodValueB v = true) :
    (∀ c ∈ v, isValueChar c = true) ∧ v.dropWhile isOWS = v := by
  rw [goodValueB.eq_def] at h
  rcases Bool.and_eq_true_iff.mp h with ⟨h1, h2⟩
  refine ⟨fun c hc => List.all_eq_true.mp h1 c hc, ?_⟩
  cases v with
  | nil => simp
  | cons c t =>
    simp only [Bool.not_eq_true'] at h2
    simp [List.dropWhile, h2]

theorem tokenChar_props {c : Char} (h : isTokenChar c = true) :
    c ≠ '\r' ∧ notColon c = true := by
  refine ⟨boolPred_ne h (by decide), ?_⟩
  rw [notColon]
  have : c ≠ ':' := boolPred_ne h (by decide)
  simp [this]

theorem valueChar_ne_cr {c : Char} (h : isValueChar c = true) : c ≠ '\r' :=
  boolPred_ne h (by decide)

/-- One header line parses back to its name/value pair: the serialized form
of a good header is recovered exactly. -/
theorem parseRespHeadersAux_block :
    ∀ (hs : List (Bytes × Bytes)) (body : Bytes) (fuel : Nat),
      goodHeadersB hs = true → hs.length < fuel →
      parseRespHeadersAux fuel (headerBlock hs ++ '\r' :: '\n' :: body) =
        some (hs, body) := by
  intro hs
  induction hs with
  | nil =>
    intro body fuel _ hf
    cases fuel with
    | zero => omega
    | succ f =>
      rw [parseRespHeadersAux]
      have hsplit : splitAtCRLF (headerBlock [] ++ '\r' :: '\n' :: body) =
          some ([], body) := splitAtCRLF_append [] body (by simp)
      rw [hsplit]
      simp
  | cons nv tl ih =>
    intro body fuel hg hf
    cases fuel with
    | zero => omega
    | succ f =>
      have hg2 := hg
      rw [goodHeadersB, List.all_cons] at hg2
      rcases Bool.and_eq_true_iff.mp hg2 with ⟨hnv, htl⟩
      rcases Bool.and_eq_true_iff.mp hnv with ⟨hname, hvalue⟩
      rcases goodNameB_spec hname with ⟨hne, htok⟩
      rcases goodValueB_spec hvalue with ⟨hval, hdrop⟩
      have hshape : headerBlock (nv :: tl) ++ '\r' :: '\n' :: body =
          (nv.1 ++ ':' :: ' ' :: nv.2) ++ '\r' :: '\n' ::
            (headerBlock tl ++ '\r' :: '\n' :: body) := by
        simp [headerBlock, headerLine]
      rw [parseRespHeadersAux, hshape]
      have hnocr : ∀ c ∈ nv.1 ++ ':' :: ' ' :: nv.2, c ≠ '\r' := by
        intro c hc
        rcases List.mem_append.mp hc with h1 | h2
        · exact (tokenChar_props (htok c h1)).1
        · rcases h2 with _ | ⟨_, h3⟩
          · decide
          · rcases h3 with _ | ⟨_, h4⟩
            · decide
            · exact valueChar_ne_cr (hval c (by simpa using h4))
      rw [splitAtCRLF_append (nv.1 ++ ':' :: ' ' :: nv.2)
        (headerBlock tl ++ '\r' :: '\n' :: body) hnocr]
      have hlinene : (nv.1 ++ ':' :: ' ' :: nv.2) ≠ [] := by simp
      have htake : (nv.1 ++ ':' :: ' ' :: nv.2).takeWhile notColon = nv.1 :=
        takeWhile_append_of_all nv.1 ':' (' ' :: nv.2)
          (fun c hc => (tokenChar_props (htok c hc)).2) (by decide)
      have hdropc : (nv.1 ++ ':' :: ' ' :: nv.2).dropWhile notColon =
          ':' :: ' ' :: nv.2 :=
        dropWhile_append_of_all nv.1 ':' (' ' :: nv.2)
          (fun c hc => (tokenChar_props (htok c hc)).2) (by decide)
      have hows : (' ' :: nv.2).dropWhile isOWS = nv.2 := by
        rw [List.dropWhile]
        simp only [show isOWS ' ' = true from by decide]
        exact hdrop
      have hih := ih body f htl (by simp at hf ⊢; omega)
      simp only [if_neg hlinene, htake, hdropc, if_neg hne, hows, hih,
        Option.map_some]
      simp

/-- Parsing the flat serialized form recovers status, headers and body. -/
theorem parse_http_response_decomp (s : Nat) (reason : Bytes)
    (hs : List (Bytes × Bytes)) (body : Bytes)
    (h1 : 100 ≤ s) (h2 : s ≤ 999) (hreason : ∀ c ∈ reason, c ≠ '\r')
    (hgood : goodHeadersB hs = true) :
    parse_http_response ("HTTP/1.1 ".toList ++ (natToDigits s ++ ' ' ::
      (reason ++ '\r' :: '\n' ::
        (headerBlock hs ++ '\r' :: '\n' :: body)))) = some (s, hs, body) := by
  rw [parse_http_response.eq_def]
  rw [parseLiteral_self]
  have htake : (natToDigits s ++ ' ' :: (reason ++ '\r' :: '\n' ::
      (headerBlock hs ++ '\r' :: '\n' :: body))).takeWhile Char.isDigit =
      natToDigits s :=
    takeWhile_append_of_all _ ' ' _
      (fun c hc => decDigit_isDigit (mem_natToDigits _ c hc)) (by decide)
  have hdropw : (natToDigits s ++ ' ' :: (reason ++ '\r' :: '\n' ::
      (headerBlock hs ++ '\r' :: '\n' :: body))).dropWhile Char.isDigit =
      ' ' :: (reason ++ '\r' :: '\n' ::
      (headerBlock hs ++ '\r' :: '\n' :: body)) :=
    dropWhile_append_of_all _ ' ' _
      (fun c hc => decDigit_isDigit (mem_natToDigits _ c hc)) (by decide)
  have hsplit : splitAtCRLF (reason ++ '\r' :: '\n' ::
      (headerBlock hs ++ '\r' :: '\n' :: body)) =
      some (reason, headerBlock hs ++ '\r' :: '\n' :: body) :=
    splitAtCRLF_append _ _ hreason
  have hfuel : hs.length <
      (headerBlock hs ++ '\r' :: '\n' :: body).length + 1 := by
    have := headerBlock_length_ge hs
    simp only [List.length_append, List.length_cons]
    omega
  have hblock := parseRespHeadersAux_block hs body
    ((headerBlock hs ++ '\r' :: '\n' :: body).length + 1) hgood hfuel
  simp only [htake, hdropw, if_neg (natToDigits_ne_nil s), hsplit, hblock,
    digitsToNat_natToDigits s h1 h2]

/-- Round-trip core: parsing the serialized response recovers the status,
the supplied headers followed by the injected ones, and the body. -/
theorem parse_serialize (d : Bytes) (r : Response)
    (hr : goodResponseB r = true) (hd : goodValueB d = true) :
    parse_http_response (serialize_response d r) =
      some (r.status, r.headers ++ injectedHeaders d r, r.body) := by
  have hr2 := hr
  rw [goodResponseB] at hr2
  rcases Bool.and_eq_true_iff.mp hr2 with ⟨hr3, hh⟩
  rcases Bool.and_eq_true_iff.mp hr3 with ⟨h1b, h2b⟩
  have h1 : 100 ≤ r.status := of_decide_eq_true h1b
  have h2 : r.status ≤ 999 := of_decide_eq_true h2b
  have hgood : goodHeadersB (r.headers ++ injectedHeaders d r) = true := by
    rw [goodHeadersB_append]
    rw [hh, injectedHeaders_good d r hd]
    rfl
  rw [serialize_response_eq]
  exact parse_http_response_decomp r.status (reasonStr r.status)
    (r.headers ++ injectedHeaders d r) r.body h1 h2
    (reasonStr_ne_cr r.status) hgood

/-! ## Handler routing lemmas -/

theorem handle_request_route (req : RawRequest) (p : Bytes)
    (hp : req.path = some p) :
    handle_request req =
      some (if p = "/".toList then
        ⟨200, [(CONTENT_TYPE, "text/plain".toList)], "Hello, World!".toList⟩
      else if p = "/health".toList then
        ⟨200, [(CONTENT_TYPE, "text/plain".toList)], "Ok".toList⟩
      else
        ⟨404, [(CONTENT_TYPE, "text/plain".toList)], "Not Found".toList⟩) := by
  rw [handle_request.eq_def, hp]
  dsimp only
  by_cases e1 : p = "/".toList
  · subst e1
    rw [if_pos rfl, if_pos rfl, Response.build, if_pos (by decide)]
  · rw [if_neg e1, if_neg e1]
    by_cases e2 : p = "/health".toList
    · subst e2
      rw [if_pos rfl, if_pos rfl, Response.build, if_pos (by decide)]
    · rw [if_neg e2, if_neg e2, Response.build, if_pos (by decide)]

theorem hyper_handle_request_route (p : Bytes) :
    hyper_handle_request p =
      some (if p = "/".toList then
        ⟨200, [(CONTENT_TYPE, "text/plain".toList)], "Hello, World!".toList⟩
      else if p = "/health".toList then
        ⟨200, [(CONTENT_TYPE, "text/plain".toList)], "OK".toList⟩
      else
        ⟨404, [(CONTENT_TYPE, "text/plain".toList)], "Not Found".toList⟩) := by
  rw [hyper_handle_request]
  by_cases e1 : p = "/".toList
  · subst e1
    rw [if_pos rfl, if_pos rfl, Response.build, if_pos (by decide)]
  · rw [if_neg e1, if_neg e1]
    by_cases e2 : p = "/health".toList
    · subst e2
      rw [if_pos rfl, if_pos rfl, Response.build, if_pos (by decide)]
    · rw [if_neg e2, if_neg e2, Response.build, if_pos (by decide)]

/-! ## Connection loop lemmas -/

theorem parse_request_nil : parse_request [] = .needMore := by decide

theorem handle_connection_buffer_irrel (d : Bytes) (b b2 : Bytes)
    (reads : List Bytes) :
    handle_connection d b reads = handle_connection d b2 reads := by
  cases reads <;> rfl

/-- On a Complete parse the loop serves the response and keeps the
connection: the remaining reads are processed as before. -/
theorem handle_connection_complete_cons (d b chunk : Bytes)
    (rest : List Bytes) (req : RawRequest) (n : Nat) (res : Response)
    (h : parse_request chunk = .complete req n)
    (hres : handle_request req = some res) :
    handle_connection d b (chunk :: rest) =
      (serialize_response d res :: (handle_connection d chunk rest).1,
       (handle_connection d chunk rest).2) := by
  have hne : chunk ≠ [] := by
    intro he
    rw [he, parse_request_nil] at h
    exact ParseOutcome.noConfusion h
  have hlen : ¬chunk.length = 0 := by
    simpa using hne
  rw [handle_connection]
  simp only [List.nil_append, List.take_length, if_neg hlen, h, hres]

/-- On a Partial parse (and a nonempty read) the loop writes the fixed 400
response and closes, regardless of any further reads. -/
theorem handle_connection_partial_cons (d b chunk : Bytes)
    (rest : List Bytes) (h0 : chunk ≠ [])
    (h : parse_request chunk = .needMore) :
    handle_connection d b (chunk :: rest) =
      ([serialize_response d incompleteResponse], true) := by
  have hlen : ¬chunk.length = 0 := by simpa using h0
  rw [handle_connection]
  simp only [List.nil_append, List.take_length, if_neg hlen, h]

/-- On a Malformed parse the loop writes the fixed 400 response and closes,
regardless of any further reads. -/
theorem handle_connection_malformed_cons (d b chunk : Bytes)
    (rest : List Bytes) (h : parse_request chunk = .malformed) :
    handle_connection d b (chunk :: rest) =
      ([serialize_response d badRequestResponse], true) := by
  have hne : chunk ≠ [] := by
    intro he
    rw [he, parse_request_nil] at h
    exact ParseOutcome.noConfusion h
  have hlen : ¬chunk.length = 0 := by simpa using hne
  rw [handle_connection]
  simp only [List.nil_append, List.take_length, if_neg hlen, h]

/-- Every Complete parse result carries method, path and version as `some`. -/
theorem parse_request_complete_struct :
    ∀ (buf : Bytes) (req : RawRequest) (n : Nat),
      parse_request buf = .complete req n →
      ∃ m p v hs, req = ⟨some m, some p, some v, hs⟩ := by
  intro buf req n h
  rw [parse_request.eq_def] at h
  cases hl : parseRequestLine buf with
  | ok val r =>
    obtain ⟨m, p, v⟩ := val
    rw [hl] at h
    dsimp only at h
    cases hh : parseHeadersAux MAX_HEADERS r with
    | ok hs rest =>
      rw [hh] at h
      dsimp only at h
      injection h with h1 h2
      exact ⟨m, p, v, hs, h1.symm⟩
    | needMore => rw [hh] at h; simp at h
    | bad => rw [hh] at h; simp at h
  | needMore => rw [hl] at h; simp at h
  | bad => rw [hl] at h; simp at h

/-! ## Named-header filtering (for stating the injection property) -/

/-- The headers of a list carrying a given name (case-insensitive). -/
def filterName (hs : List (Bytes × Bytes)) (name : Bytes) :
    List (Bytes × Bytes) :=
  hs.filter (fun nv => lowerB nv.1 = lowerB name)

/-- How many headers of a list carry a given name (case-insensitive). -/
def countName (hs : List (Bytes × Bytes)) (name : Bytes) : Nat :=
  (filterName hs name).length

theorem filterName_append (a b : List (Bytes × Bytes)) (nm : Bytes) :
    filterName (a ++ b) nm = filterName a nm ++ filterName b nm := by
  simp [filterName]

theorem filterName_of_not_contains {hs : List (Bytes × Bytes)} {nm : Bytes}
    (h : containsKey hs nm = false) : filterName hs nm = [] := by
  rw [filterName, List.filter_eq_nil_iff]
  intro nv hnv hp
  have hc : containsKey hs nm = true := by
    rw [containsKey]
    exact List.any_eq_true.mpr ⟨nv, hnv, hp⟩
  rw [hc] at h
  exact Bool.noConfusion h

/-- Modelled from the spec: the exact serialized byte layout — status line
`HTTP/1.1 <code> <reason>\r\n`, one `<Name>: <value>\r\n` line per supplied
header in original order, then the conditionally-injected headers, then
`\r\n`, then the raw body bytes with no trailing bytes after the body. -/
def specSerializedLayout (d : Bytes) (r : Response) : Bytes :=
  ("HTTP/1.1 ".toList ++ natToDigits r.status ++ [' '] ++
      reasonStr r.status ++ ['\r', '\n']) ++
    headerBlock r.headers ++
    headerBlock (injectedHeaders d r) ++
    ['\r', '\n'] ++
    r.body

/-! ## Claim theorems -/

/-- C4: for every Response, the serialized byte sequence is exactly the
status line `HTTP/1.1 <code> <reason>\r\n`, then one `<Name>: <value>\r\n`
line per supplied header in original insertion order, then the
conditionally-injected headers, then a blank `\r\n` line, then the raw body
bytes with no trailing bytes after the body. -/
theorem c4_serialized_layout (d : Bytes) (r : Response) :
    serialize_response d r = specSerializedLayout d r := by
  rw [serialize_response_eq, specSerializedLayout, headerBlock_append]
  simp

/-- C7: serializing a Response and re-parsing the produced bytes with a
standard HTTP response parser recovers the same status code, the same
header set modulo the injected Content-Length and Date headers, and the
byte-for-byte identical body. -/
theorem c7_round_trip (d : Bytes) (r : Response)
    (hr : goodResponseB r = true) (hd : goodValueB d = true) :
    parse_http_response (serialize_response d r) =
      some (r.status, r.headers ++ injectedHeaders d r, r.body) :=
  parse_serialize d r hr hd

/-- C7 witness: a concrete round trip. -/
theorem c7_round_trip_witness :
    goodResponseB ⟨200, [(CONTENT_TYPE, "text/plain".toList)],
        "Hello".toList⟩ = true ∧
    goodValueB "Thu, 01 Jan 1970 00:00:00 GMT".toList = true ∧
    parse_http_response (serialize_response
        "Thu, 01 Jan 1970 00:00:00 GMT".toList
        ⟨200, [(CONTENT_TYPE, "text/plain".toList)], "Hello".toList⟩) =
      some ((⟨200, [(CONTENT_TYPE, "text/plain".toList)],
          "Hello".toList⟩ : Response).status,
        (⟨200, [(CONTENT_TYPE, "text/plain".toList)],
          "Hello".toList⟩ : Response).headers ++
          injectedHeaders "Thu, 01 Jan 1970 00:00:00 GMT".toList
            ⟨200, [(CONTENT_TYPE, "text/plain".toList)], "Hello".toList⟩,
        (⟨200, [(CONTENT_TYPE, "text/plain".toList)],
          "Hello".toList⟩ : Response).body) :=
  ⟨by decide, by decide,
    c7_round_trip "Thu, 01 Jan 1970 00:00:00 GMT".toList
      ⟨200, [(CONTENT_TYPE, "text/plain".toList)], "Hello".toList⟩
      (by decide) (by decide)⟩

/-- C3: the serializer injects Content-Length (equal to the exact body byte
length) and Date, each exactly once and only when the caller's header set
does not already contain that name under case-insensitive lookup; a
caller-supplied Content-Length (or Date) is never overwritten; when both
are injected, Content-Length appears before Date. -/
theorem c3_injected_headers (d : Bytes) (r : Response)
    (hr : goodResponseB r = true) (hd : goodValueB d = true) :
    ∃ hs, parse_http_response (serialize_response d r) =
        some (r.status, hs, r.body) ∧
      (containsKey r.headers CONTENT_LENGTH = false →
        countName hs CONTENT_LENGTH = 1 ∧
        (CONTENT_LENGTH, natToDigits r.body.length) ∈ hs) ∧
      (containsKey r.headers CONTENT_LENGTH = true →
        filterName hs CONTENT_LENGTH = filterName r.headers CONTENT_LENGTH) ∧
      (containsKey r.headers DATE = false →
        countName hs DATE = 1 ∧ (DATE, d) ∈ hs) ∧
      (containsKey r.headers DATE = true →
        filterName hs DATE = filterName r.headers DATE) ∧
      (containsKey r.headers CONTENT_LENGTH = false →
        containsKey r.headers DATE = false →
        hs = r.headers ++
          [(CONTENT_LENGTH, natToDigits r.body.length), (DATE, d)]) := by
  have hdc : lowerB DATE ≠ lowerB CONTENT_LENGTH := by decide
  have hcd : lowerB CONTENT_LENGTH ≠ lowerB DATE := by decide
  refine ⟨r.headers ++ injectedHeaders d r, parse_serialize d r hr hd,
    ?_, ?_, ?_, ?_, ?_⟩
  · intro hcl
    have h0 : filterName r.headers CONTENT_LENGTH = [] :=
      filterName_of_not_contains hcl
    constructor
    · rw [countName, filterName_append, h0, injectedHeaders, if_neg (by simp [hcl])]
      by_cases hdt : containsKey r.headers DATE = true <;>
        simp [hdt, filterName, hdc]
    · rw [injectedHeaders, if_neg (by simp [hcl])]
      simp
  · intro hcl
    rw [filterName_append, injectedHeaders, if_pos hcl]
    by_cases hdt : containsKey r.headers DATE = true <;>
      simp [hdt, filterName, hdc]
  · intro hdt
    have h0 : filterName r.headers DATE = [] :=
      filterName_of_not_contains hdt
    constructor
    · rw [countName, filterName_append, h0, injectedHeaders]
      by_cases hcl : containsKey r.headers CONTENT_LENGTH = true <;>
        simp [hcl, hdt, filterName, hcd]
    · rw [injectedHeaders]
      by_cases hcl : containsKey r.headers CONTENT_LENGTH = true <;>
        simp [hcl, hdt]
  · intro hdt
    rw [filterName_append, injectedHeaders, if_pos hdt]
    by_cases hcl : containsKey r.headers CONTENT_LENGTH = true <;>
      simp [hcl, filterName, hcd]
  · intro hcl hdt
    rw [injectedHeaders, if_neg (by simp [hcl]), if_neg (by simp [hdt])]
    simp

/-- C3 witness: a concrete Response without Content-Length or Date. -/
theorem c3_injected_headers_witness :
    goodResponseB ⟨404, [(CONTENT_TYPE, "text/plain".toList)],
        "Not Found".toList⟩ = true ∧
    goodValueB "Thu, 01 Jan 1970 00:00:00 GMT".toList = true ∧
    (∃ hs, parse_http_response (serialize_response
          "Thu, 01 Jan 1970 00:00:00 GMT".toList
          ⟨404, [(CONTENT_TYPE, "text/plain".toList)], "Not Found".toList⟩) =
        some ((⟨404, [(CONTENT_TYPE, "text/plain".toList)],
            "Not Found".toList⟩ : Response).status, hs,
          (⟨404, [(CONTENT_TYPE, "text/plain".toList)],
            "Not Found".toList⟩ : Response).body) ∧
      (containsKey (⟨404, [(CONTENT_TYPE, "text/plain".toList)],
            "Not Found".toList⟩ : Response).headers CONTENT_LENGTH = false →
        countName hs CONTENT_LENGTH = 1 ∧
        (CONTENT_LENGTH, natToDigits (⟨404,
            [(CONTENT_TYPE, "text/plain".toList)],
            "Not Found".toList⟩ : Response).body.length) ∈ hs) ∧
      (containsKey (⟨404, [(CONTENT_TYPE, "text/plain".toList)],
            "Not Found".toList⟩ : Response).headers CONTENT_LENGTH = true →
        filterName hs CONTENT_LENGTH =
          filterName (⟨404, [(CONTENT_TYPE, "text/plain".toList)],
            "Not Found".toList⟩ : Response).headers CONTENT_LENGTH) ∧
      (containsKey (⟨404, [(CONTENT_TYPE, "text/plain".toList)],
            "Not Found".toList⟩ : Response).headers DATE = false →
        countName hs DATE = 1 ∧
        (DATE, "Thu, 01 Jan 1970 00:00:00 GMT".toList) ∈ hs) ∧
      (containsKey (⟨404, [(CONTENT_TYPE, "text/plain".toList)],
            "Not Found".toList⟩ : Response).headers DATE = true →
        filterName hs DATE =
          filterName (⟨404, [(CONTENT_TYPE, "text/plain".toList)],
            "Not Found".toList⟩ : Response).headers DATE) ∧
      (containsKey (⟨404, [(CONTENT_TYPE, "text/plain".toList)],
            "Not Found".toList⟩ : Response).headers CONTENT_LENGTH = false →
        containsKey (⟨404, [(CONTENT_TYPE, "text/plain".toList)],
            "Not Found".toList⟩ : Response).headers DATE = false →
        hs = (⟨404, [(CONTENT_TYPE, "text/plain".toList)],
            "Not Found".toList⟩ : Response).headers ++
          [(CONTENT_LENGTH, natToDigits (⟨404,
              [(CONTENT_TYPE, "text/plain".toList)],
              "Not Found".toList⟩ : Response).body.length),
            (DATE, "Thu, 01 Jan 1970 00:00:00 GMT".toList)])) :=
  ⟨by decide, by decide,
    c3_injected_headers "Thu, 01 Jan 1970 00:00:00 GMT".toList
      ⟨404, [(CONTENT_TYPE, "text/plain".toList)], "Not Found".toList⟩
      (by decide) (by decide)⟩

/-- C2: for every parsed request, path `/` maps to 200 `text/plain`
"Hello, World!", `/health` to 200 `text/plain` "Ok" (monoio) / "OK"
(hyper), and every other path to 404 `text/plain` "Not Found", in both
handlers. -/
theorem c2_routing (req : RawRequest) (p : Bytes) (hp : req.path = some p) :
    (p = "/".toList →
      handle_request req = some ⟨200, [(CONTENT_TYPE, "text/plain".toList)],
        "Hello, World!".toList⟩ ∧
      hyper_handle_request p = some ⟨200,
        [(CONTENT_TYPE, "text/plain".toList)], "Hello, World!".toList⟩) ∧
    (p = "/health".toList →
      handle_request req = some ⟨200, [(CONTENT_TYPE, "text/plain".toList)],
        "Ok".toList⟩ ∧
      hyper_handle_request p = some ⟨200,
        [(CONTENT_TYPE, "text/plain".toList)], "OK".toList⟩) ∧
    (p ≠ "/".toList → p ≠ "/health".toList →
      handle_request req = some ⟨404, [(CONTENT_TYPE, "text/plain".toList)],
        "Not Found".toList⟩ ∧
      hyper_handle_request p = some ⟨404,
        [(CONTENT_TYPE, "text/plain".toList)], "Not Found".toList⟩) := by
  rw [handle_request_route req p hp, hyper_handle_request_route p]
  refine ⟨?_, ?_, ?_⟩
  · intro e1
    rw [if_pos e1, if_pos e1]
    exact ⟨rfl, rfl⟩
  · intro e2
    have e1 : p ≠ "/".toList := by
      intro he
      rw [he] at e2
      exact absurd e2 (by decide)
    rw [if_neg e1, if_neg e1, if_pos e2, if_pos e2]
    exact ⟨rfl, rfl⟩
  · intro e1 e2
    rw [if_neg e1, if_neg e1, if_neg e2, if_neg e2]
    exact ⟨rfl, rfl⟩

/-- C2 witness: the root path in a concrete parsed request. -/
theorem c2_routing_witness :
    (⟨some "GET".toList, some "/".toList, some 1, []⟩ : RawRequest).path =
      some "/".toList ∧
    (("/".toList : Bytes) = "/".toList →
      handle_request ⟨some "GET".toList, some "/".toList, some 1, []⟩ =
        some ⟨200, [(CONTENT_TYPE, "text/plain".toList)],
          "Hello, World!".toList⟩ ∧
      hyper_handle_request "/".toList = some ⟨200,
        [(CONTENT_TYPE, "text/plain".toList)], "Hello, World!".toList⟩) ∧
    (("/".toList : Bytes) = "/health".toList →
      handle_request ⟨some "GET".toList, some "/".toList, some 1, []⟩ =
        some ⟨200, [(CONTENT_TYPE, "text/plain".toList)], "Ok".toList⟩ ∧
      hyper_handle_request "/".toList = some ⟨200,
        [(CONTENT_TYPE, "text/plain".toList)], "OK".toList⟩) ∧
    (("/".toList : Bytes) ≠ "/".toList →
      ("/".toList : Bytes) ≠ "/health".toList →
      handle_request ⟨some "GET".toList, some "/".toList, some 1, []⟩ =
        some ⟨404, [(CONTENT_TYPE, "text/plain".toList)],
          "Not Found".toList⟩ ∧
      hyper_handle_request "/".toList = some ⟨404,
        [(CONTENT_TYPE, "text/plain".toList)], "Not Found".toList⟩) :=
  ⟨rfl, c2_routing ⟨some "GET".toList, some "/".toList, some 1, []⟩
    "/".toList rfl⟩

/-- C6: for every parsed request the handler returns a Response value and
never fails; unmatched paths yield a 404 Response rather than an error, in
both handlers. -/
theorem c6_handler_total (req : RawRequest) (p : Bytes)
    (hp : req.path = some p) :
    (∃ res, handle_request req = some res ∧
      (res.status = 200 ∨ res.status = 404)) ∧
    (p ≠ "/".toList → p ≠ "/health".toList →
      ∃ res, handle_request req = some res ∧ res.status = 404) ∧
    (∃ res2, hyper_handle_request p = some res2 ∧
      (res2.status = 200 ∨ res2.status = 404)) := by
  rw [handle_request_route req p hp, hyper_handle_request_route p]
  refine ⟨⟨_, rfl, ?_⟩, ?_, ⟨_, rfl, ?_⟩⟩
  · by_cases e1 : p = "/".toList
    · rw [if_pos e1]
      exact Or.inl rfl
    · rw [if_neg e1]
      by_cases e2 : p = "/health".toList
      · rw [if_pos e2]
        exact Or.inl rfl
      · rw [if_neg e2]
        exact Or.inr rfl
  · intro e1 e2
    rw [if_neg e1, if_neg e2]
    exact ⟨_, rfl, rfl⟩
  · by_cases e1 : p = "/".toList
    · rw [if_pos e1]
      exact Or.inl rfl
    · rw [if_neg e1]
      by_cases e2 : p = "/health".toList
      · rw [if_pos e2]
        exact Or.inl rfl
      · rw [if_neg e2]
        exact Or.inr rfl

/-- C6 witness: a concrete parsed request for an unmatched path. -/
theorem c6_handler_total_witness :
    (⟨some "GET".toList, some "/missing".toList, some 1, []⟩ :
        RawRequest).path = some "/missing".toList ∧
    ((∃ res, handle_request
        ⟨some "GET".toList, some "/missing".toList, some 1, []⟩ =
          some res ∧ (res.status = 200 ∨ res.status = 404)) ∧
    (("/missing".toList : Bytes) ≠ "/".toList →
      ("/missing".toList : Bytes) ≠ "/health".toList →
      ∃ res, handle_request
        ⟨some "GET".toList, some "/missing".toList, some 1, []⟩ =
          some res ∧ res.status = 404) ∧
    (∃ res2, hyper_handle_request "/missing".toList = some res2 ∧
      (res2.status = 200 ∨ res2.status = 404))) :=
  ⟨rfl, c6_handler_total
    ⟨some "GET".toList, some "/missing".toList, some 1, []⟩
    "/missing".toList rfl⟩

/-- C10: whenever the parser returns Complete, the request's path field is
present, so the handler's panic branch on a missing path is unreachable
(the handler succeeds on every Complete-parsed request). -/
theorem c10_complete_path_present (buf : Bytes) (req : RawRequest) (n : Nat)
    (h : parse_request buf = .complete req n) :
    req.path.isSome = true ∧ (handle_request req).isSome = true := by
  obtain ⟨m, p, v, hs, rfl⟩ := parse_request_complete_struct buf req n h
  refine ⟨rfl, ?_⟩
  rw [handle_request_route ⟨some m, some p, some v, hs⟩ p rfl]
  rfl

/-- C10 witness: a concrete Complete parse. -/
theorem c10_complete_path_present_witness :
    parse_request "GET /health HTTP/1.1\r\nHost: x\r\n\r\n".toList =
      .complete ⟨some "GET".toList, some "/health".toList, some 1,
        [("Host".toList, "x".toList)]⟩ 33 ∧
    (⟨some "GET".toList, some "/health".toList, some 1,
        [("Host".toList, "x".toList)]⟩ : RawRequest).path.isSome = true ∧
    (handle_request ⟨some "GET".toList, some "/health".toList, some 1,
        [("Host".toList, "x".toList)]⟩).isSome = true :=
  ⟨by decide,
    c10_complete_path_present "GET /health HTTP/1.1\r\nHost: x\r\n\r\n".toList
      ⟨some "GET".toList, some "/health".toList, some 1,
        [("Host".toList, "x".toList)]⟩ 33 (by decide)⟩

/-- C5: for every read whose bytes fail to parse (Malformed), the loop
builds the fixed 400 "Bad Request" response, writes it, and unconditionally
closes the connection: the result is the same whatever further reads would
follow, so no further request is ever read on that connection. -/
theorem c5_malformed_closes (d b chunk : Bytes) (rest : List Bytes)
    (h : parse_request chunk = .malformed) :
    handle_connection d b (chunk :: rest) =
      ([serialize_response d badRequestResponse], true) ∧
    handle_connection d b (chunk :: rest) =
      handle_connection d b [chunk] := by
  have h1 := handle_connection_malformed_cons d b chunk rest h
  have h2 := handle_connection_malformed_cons d b chunk [] h
  exact ⟨h1, h1.trans h2.symm⟩

/-- C5 witness: bytes that do not form a request start line, followed by a
well-formed request that is never read. -/
theorem c5_malformed_closes_witness :
    parse_request "\x00\x01\x02".toList = .malformed ∧
    (handle_connection "Thu, 01 Jan 1970 00:00:00 GMT".toList []
        ["\x00\x01\x02".toList, "GET / HTTP/1.1\r\n\r\n".toList] =
      ([serialize_response "Thu, 01 Jan 1970 00:00:00 GMT".toList
          badRequestResponse], true) ∧
    handle_connection "Thu, 01 Jan 1970 00:00:00 GMT".toList []
        ["\x00\x01\x02".toList, "GET / HTTP/1.1\r\n\r\n".toList] =
      handle_connection "Thu, 01 Jan 1970 00:00:00 GMT".toList []
        ["\x00\x01\x02".toList]) :=
  ⟨by decide, c5_malformed_closes "Thu, 01 Jan 1970 00:00:00 GMT".toList []
    "\x00\x01\x02".toList ["GET / HTTP/1.1\r\n\r\n".toList] (by decide)⟩

/-- C8: after the response for a Complete-parsed request is written, the
loop returns to reading on the same connection: the responses for the
remaining reads follow, in order, over the same connection, with no closure
in between. -/
theorem c8_keep_alive (d b chunk : Bytes) (rest : List Bytes)
    (req : RawRequest) (n : Nat) (res : Response)
    (h : parse_request chunk = .complete req n)
    (hres : handle_request req = some res) :
    handle_connection d b (chunk :: rest) =
      (serialize_response d res :: (handle_connection d chunk rest).1,
       (handle_connection d chunk rest).2) :=
  handle_connection_complete_cons d b chunk rest req n res h hres

/-- C8 witness: two well-formed requests back-to-back on one connection. -/
theorem c8_keep_alive_witness :
    parse_request "GET / HTTP/1.1\r\nHost: x\r\n\r\n".toList =
      .complete ⟨some "GET".toList, some "/".toList, some 1,
        [("Host".toList, "x".toList)]⟩ 27 ∧
    handle_request ⟨some "GET".toList, some "/".toList, some 1,
        [("Host".toList, "x".toList)]⟩ =
      some ⟨200, [(CONTENT_TYPE, "text/plain".toList)],
        "Hello, World!".toList⟩ ∧
    handle_connection "Thu, 01 Jan 1970 00:00:00 GMT".toList []
        ["GET / HTTP/1.1\r\nHost: x\r\n\r\n".toList,
         "GET /health HTTP/1.1\r\n\r\n".toList] =
      (serialize_response "Thu, 01 Jan 1970 00:00:00 GMT".toList
          ⟨200, [(CONTENT_TYPE, "text/plain".toList)],
            "Hello, World!".toList⟩ ::
        (handle_connection "Thu, 01 Jan 1970 00:00:00 GMT".toList
          "GET / HTTP/1.1\r\nHost: x\r\n\r\n".toList
          ["GET /health HTTP/1.1\r\n\r\n".toList]).1,
       (handle_connection "Thu, 01 Jan 1970 00:00:00 GMT".toList
          "GET / HTTP/1.1\r\nHost: x\r\n\r\n".toList
          ["GET /health HTTP/1.1\r\n\r\n".toList]).2) :=
  ⟨by decide, by decide,
    c8_keep_alive "Thu, 01 Jan 1970 00:00:00 GMT".toList []
      "GET / HTTP/1.1\r\nHost: x\r\n\r\n".toList
      ["GET /health HTTP/1.1\r\n\r\n".toList]
      ⟨some "GET".toList, some "/".toList, some 1,
        [("Host".toList, "x".toList)]⟩ 27
      ⟨200, [(CONTENT_TYPE, "text/plain".toList)], "Hello, World!".toList⟩
      (by decide) (by decide)⟩

/-- C9: every iteration clears the read buffer before its single read (the
loop's behaviour is independent of the buffer contents handed in), and the
consumed-byte offset of a Complete parse is ignored: a chunk holding one
complete request plus pipelined extra bytes yields exactly one response,
after which the loop moves on to the next read — the extra bytes are never
parsed or answered. -/
theorem c9_buffer_clear_pipeline_discard :
    (∀ (d b b2 : Bytes) (reads : List Bytes),
      handle_connection d b reads = handle_connection d b2 reads) ∧
    (∀ (d b chunk : Bytes) (rest : List Bytes) (req : RawRequest) (n : Nat)
      (res : Response), parse_request chunk = .complete req n →
      n < chunk.length → handle_request req = some res →
      handle_connection d b (chunk :: rest) =
        (serialize_response d res :: (handle_connection d b rest).1,
         (handle_connection d b rest).2)) := by
  refine ⟨handle_connection_buffer_irrel, ?_⟩
  intro d b chunk rest req n res h hn hres
  rw [handle_connection_complete_cons d b chunk rest req n res h hres]
  rw [handle_connection_buffer_irrel d chunk b rest]

/-- C9 witness: one read carrying a complete request plus a pipelined
second request; only the first is answered. -/
theorem c9_buffer_clear_pipeline_discard_witness :
    parse_request
        "GET / HTTP/1.1\r\n\r\nGET /health HTTP/1.1\r\n\r\n".toList =
      .complete ⟨some "GET".toList, some "/".toList, some 1, []⟩ 18 ∧
    18 < ("GET / HTTP/1.1\r\n\r\nGET /health HTTP/1.1\r\n\r\n".toList :
      Bytes).length ∧
    handle_request ⟨some "GET".toList, some "/".toList, some 1, []⟩ =
      some ⟨200, [(CONTENT_TYPE, "text/plain".toList)],
        "Hello, World!".toList⟩ ∧
    handle_connection "Thu, 01 Jan 1970 00:00:00 GMT".toList []
        ["GET / HTTP/1.1\r\n\r\nGET /health HTTP/1.1\r\n\r\n".toList] =
      (serialize_response "Thu, 01 Jan 1970 00:00:00 GMT".toList
          ⟨200, [(CONTENT_TYPE, "text/plain".toList)],
            "Hello, World!".toList⟩ ::
        (handle_connection "Thu, 01 Jan 1970 00:00:00 GMT".toList []
          ([] : List Bytes)).1,
       (handle_connection "Thu, 01 Jan 1970 00:00:00 GMT".toList []
          ([] : List Bytes)).2) :=
  ⟨by decide, by decide, by decide,
    c9_buffer_clear_pipeline_discard.2
      "Thu, 01 Jan 1970 00:00:00 GMT".toList [] _ []
      ⟨some "GET".toList, some "/".toList, some 1, []⟩ 18
      ⟨200, [(CONTENT_TYPE, "text/plain".toList)], "Hello, World!".toList⟩
      (by decide) (by decide) (by decide)⟩

/-- C1 counterexample: a read whose bytes are a valid prefix of a request
parses as Partial, and the follow-up read would complete the request (the
concatenation parses Complete) — yet the loop answers with the fixed 400
"Incomplete HTTP request" response and closes, its result identical to the
run without the second read: the buffered bytes are not preserved and no
further read is issued. -/
theorem c1_counterexample :
    parse_request "GET / HTTP/1.1\r\n".toList = .needMore ∧
    parse_request ("GET / HTTP/1.1\r\n".toList ++ "Host: x\r\n\r\n".toList) =
      .complete ⟨some "GET".toList, some "/".toList, some 1,
        [("Host".toList, "x".toList)]⟩ 27 ∧
    handle_connection "Thu, 01 Jan 1970 00:00:00 GMT".toList []
        ["GET / HTTP/1.1\r\n".toList, "Host: x\r\n\r\n".toList] =
      ([serialize_response "Thu, 01 Jan 1970 00:00:00 GMT".toList
          incompleteResponse], true) ∧
    handle_connection "Thu, 01 Jan 1970 00:00:00 GMT".toList []
        ["GET / HTTP/1.1\r\n".toList, "Host: x\r\n\r\n".toList] =
      handle_connection "Thu, 01 Jan 1970 00:00:00 GMT".toList []
        ["GET / HTTP/1.1\r\n".toList] := by
  decide

/-- C1 (amended): when a read's buffered bytes parse as Partial, the loop
does not issue another read and does not preserve the buffered bytes: it
serializes the fixed 400 "Incomplete HTTP request" response, writes it, and
closes the connection, whatever further reads would follow. -/
theorem c1_amended_partial_closes (d b chunk : Bytes) (rest : List Bytes)
    (h0 : chunk ≠ []) (h : parse_request chunk = .needMore) :
    handle_connection d b (chunk :: rest) =
      ([serialize_response d incompleteResponse], true) ∧
    handle_connection d b (chunk :: rest) =
      handle_connection d b [chunk] := by
  have h1 := handle_connection_partial_cons d b chunk rest h0 h
  have h2 := handle_connection_partial_cons d b chunk [] h0 h
  exact ⟨h1, h1.trans h2.symm⟩

/-- C1 (amended) witness: a truncated request line. -/
theorem c1_amended_partial_closes_witness :
    ("GET / HTTP/1.1\r\n".toList : Bytes) ≠ [] ∧
    parse_request "GET / HTTP/1.1\r\n".toList = .needMore ∧
    (handle_connection "Mon, 01 Jan 2001 00:00:00 GMT".toList []
        ["GET / HTTP/1.1\r\n".toList, "Host: y\r\n\r\n".toList] =
      ([serialize_response "Mon, 01 Jan 2001 00:00:00 GMT".toList
          incompleteResponse], true) ∧
    handle_connection "Mon, 01 Jan 2001 00:00:00 GMT".toList []
        ["GET / HTTP/1.1\r\n".toList, "Host: y\r\n\r\n".toList] =
      handle_connection "Mon, 01 Jan 2001 00:00:00 GMT".toList []
        ["GET / HTTP/1.1\r\n".toList]) :=
  ⟨by decide, by decide,
    c1_amended_partial_closes "Mon, 01 Jan 2001 00:00:00 GMT".toList []
      "GET / HTTP/1.1\r\n".toList ["Host: y\r\n\r\n".toList]
      (by decide) (by decide)⟩
